import Mathlib

/-!
Verification of the okteto dev-mode translation and pod-wait engine.

The definitions below are a shallow embedding of the Go sources:
 - pkg/model (manifest model, FullSubPath, ToTranslationRule),
 - pkg/k8s/deployments (DevModeOff, isDeploymentFailed's caller contract),
 - pkg/k8s/pods (GetByLabel, Restart, waitUntilRunning, isRunning).
Cluster API calls are modelled as environments: a function from the attempt
index to the response the cluster gave on that attempt.  Machine integers are
Int/Nat (no arithmetic in the claims overflows), resource quantities are exact
rationals, and Go errors are explicit inductive error types.
-/

namespace Okteto

/-- Splits a character list on the slash character; consecutive, leading and
trailing slashes produce empty components. -/
def splitSlash : List Char → List (List Char)
  | [] => [[]]
  | c :: rest =>
    let r := splitSlash rest
    if c = '/' then [] :: r
    else
      match r with
      | [] => [[c]]
      | h :: t => (c :: h) :: t

/-- Interleaves a slash between path components. -/
def interSlash : List (List Char) → List Char
  | [] => []
  | [x] => x
  | x :: xs => x ++ '/' :: interSlash xs

/-- Models Go's path/filepath.Join for relative paths that contain no "." or
".." components: elements are joined with "/" and empty components produced
by leading, trailing or doubled slashes are dropped (filepath.Clean collapses
them the same way on such inputs). -/
def filepathJoin (elems : List String) : String :=
  ⟨interSlash (((elems.map (fun e => splitSlash e.data)).flatten).filter (fun l => l ≠ []))⟩

/-- An environment variable of the manifest (model.EnvVar). -/
structure EnvVar where
  name : String
  value : String
deriving DecidableEq

/-- Linux capability lists of a security context (model.Capabilities and the
add/drop lists of the k8s container security context; capabilities are
compared as exact case-sensitive strings). -/
structure Capabilities where
  add : List String
  drop : List String
deriving DecidableEq

/-- A pod/container security context (model.SecurityContext; the same shape
stands for the k8s container-side security context in the merge). -/
structure SecurityContext where
  runAsUser : Option Int
  runAsGroup : Option Int
  fsGroup : Option Int
  capabilities : Option Capabilities
deriving DecidableEq

/-- The CPU and memory entries of a k8s ResourceList, as exact rationals
(CPU in cores, memory in bytes); none means the resource is not present in
the map. -/
structure ResourcePair where
  cpu : Option ℚ
  memory : Option ℚ
deriving DecidableEq

/-- Resource requirements: limits and requests (model.ResourceRequirements /
k8s ResourceRequirements restricted to the CPU and memory keys the merge
touches). -/
structure ResourceRequirements where
  limits : ResourcePair
  requests : ResourcePair
deriving DecidableEq

/-- The parsed development-environment manifest (model.Dev), restricted to
the fields the translation rule builder reads. -/
structure Dev where
  name : String
  container : String
  image : String
  imagePullPolicy : String
  environment : List EnvVar
  command : List String
  workDir : String
  mountPath : String
  subPath : String
  volumes : List String
  securityContext : Option SecurityContext
  resources : ResourceRequirements
deriving DecidableEq

/-- oktetoVolumeName constant of pkg/model. -/
def oktetoVolumeName : String := "okteto"

/-- OktetoInitContainer constant of pkg/model. -/
def OktetoInitContainer : String := "okteto-init"

/-- A volume mount of a translation rule (model.VolumeMount). -/
structure VolumeMount where
  name : String
  mountPath : String
  subPath : String
deriving DecidableEq

/-- A translation rule (model.TranslationRule).  Go's nil and empty slices
for command/args are distinguished: none stands for a nil slice (field never
assigned), some [] for an assigned empty slice. -/
structure TranslationRule where
  container : String
  image : String
  imagePullPolicy : String
  environment : List EnvVar
  workDir : String
  volumes : List VolumeMount
  securityContext : Option SecurityContext
  resources : ResourceRequirements
  healthchecks : Bool
  command : Option (List String)
  args : Option (List String)
deriving DecidableEq

/-- Dev.FullSubPath from pkg/model: the sub-path inside the shared okteto
volume for mount index i.  Note that the subPath parameter is ignored by the
source; the branch is on the receiver's own subPath field. -/
def Dev.FullSubPath (dev : Dev) (i : Nat) (subPath : String) : String :=
  if dev.subPath = "" then filepathJoin [dev.name, "data-" ++ toString i]
  else filepathJoin [dev.name, "data-" ++ toString i, dev.subPath]

/-- Dev.ToTranslationRule from pkg/model.  The Go source receives the node as
pointer receiver and the root manifest as main and branches on pointer
equality main == dev; isMain models that pointer identity. -/
def Dev.ToTranslationRule (dev : Dev) (main : Dev) (isMain : Bool) : TranslationRule :=
  let rule : TranslationRule :=
    { container := dev.container
      image := dev.image
      imagePullPolicy := dev.imagePullPolicy
      environment := dev.environment
      workDir := dev.workDir
      volumes := [{ name := oktetoVolumeName
                    mountPath := dev.mountPath
                    subPath := main.FullSubPath 0 dev.subPath }]
      securityContext := dev.securityContext
      resources := dev.resources
      healthchecks := false
      command := none
      args := none }
  let rule :=
    if isMain then
      { rule with healthchecks := false
                  command := some ["tail"]
                  args := some ["-f", "/dev/null"] }
    else
      if dev.command.length > 0 then
        { rule with healthchecks := true
                    command := some dev.command
                    args := some [] }
      else
        { rule with healthchecks := true }
  { rule with
    volumes := rule.volumes ++
      ((List.range dev.volumes.length).zip dev.volumes).map (fun iv =>
        { name := oktetoVolumeName
          mountPath := iv.2
          subPath := main.FullSubPath (iv.1 + 1) main.subPath }) }

/-- Empty resource requirements (both maps absent). -/
def emptyResources : ResourceRequirements :=
  { limits := { cpu := none, memory := none }, requests := { cpu := none, memory := none } }

/-- The root manifest of the Test_translate scenario (name web, mountpath
/app, no declared sub-path, no extra volumes). -/
def devWeb : Dev :=
  { name := "web", container := "dev", image := "web:latest", imagePullPolicy := "Always"
    environment := [], command := ["./run_web.sh"], workDir := "/app", mountPath := "/app"
    subPath := "", volumes := [], securityContext := none, resources := emptyResources }

/-- The secondary manifest of the Test_translate scenario (name worker,
mountpath /src, declared sub-path /worker). -/
def devWorker : Dev :=
  { name := "worker", container := "dev", image := "worker:latest", imagePullPolicy := "Always"
    environment := [], command := ["./run_worker.sh"], workDir := "", mountPath := "/src"
    subPath := "/worker", volumes := [], securityContext := none, resources := emptyResources }

/-- The sub-paths of the zipped extra-volume mounts depend only on the index
component of the zip. -/
theorem zip_volumes_subPath (main : Dev) (l : List String) :
    ((List.range l.length).zip l).map
        (fun iv => main.FullSubPath (iv.1 + 1) main.subPath) =
      (List.range l.length).map (fun i => main.FullSubPath (i + 1) main.subPath) := by
  have h1 : ((List.range l.length).zip l).map Prod.fst = List.range l.length := by
    apply List.map_fst_zip
    simp
  have h : ((List.range l.length).zip l).map
      (fun iv => main.FullSubPath (iv.1 + 1) main.subPath) =
      (((List.range l.length).zip l).map Prod.fst).map
        (fun i => main.FullSubPath (i + 1) main.subPath) := by
    rw [List.map_map]
    rfl
  rw [h, h1]

/-- Dev.FullSubPath always equals the uniform three-component join (the
empty-sub-path branch just drops the empty component). -/
theorem fullSubPath_eq_join (dev : Dev) (i : Nat) (s : String) :
    dev.FullSubPath i s = filepathJoin [dev.name, "data-" ++ toString i, dev.subPath] := by
  unfold Dev.FullSubPath
  by_cases h : dev.subPath = "" <;> simp [h, filepathJoin, splitSlash]

/-- The list of volume mounts a rule carries, projected to sub-paths. -/
theorem toTranslationRule_volumes_subPaths (dev main : Dev) (b : Bool) :
    ((dev.ToTranslationRule main b).volumes.map (fun v => v.subPath)) =
      (List.range (dev.volumes.length + 1)).map
        (fun i => filepathJoin [main.name, "data-" ++ toString i, main.subPath]) := by
  have hvol : (dev.ToTranslationRule main b).volumes =
      { name := oktetoVolumeName, mountPath := dev.mountPath,
        subPath := main.FullSubPath 0 dev.subPath } ::
      ((List.range dev.volumes.length).zip dev.volumes).map (fun iv =>
        { name := oktetoVolumeName, mountPath := iv.2,
          subPath := main.FullSubPath (iv.1 + 1) main.subPath }) := by
    cases b <;> by_cases hc : dev.command.length > 0 <;> simp [Dev.ToTranslationRule, hc]
  rw [hvol, List.range_succ_eq_map, List.map_cons, List.map_cons]
  congr 1
  · exact fullSubPath_eq_join main 0 dev.subPath
  · rw [List.map_map, List.map_map]
    have h2 : ((fun v : VolumeMount => v.subPath) ∘ fun iv : Nat × String =>
        ({ name := oktetoVolumeName, mountPath := iv.2,
           subPath := main.FullSubPath (iv.1 + 1) main.subPath } : VolumeMount)) =
        fun iv : Nat × String => main.FullSubPath (iv.1 + 1) main.subPath := rfl
    rw [h2, zip_volumes_subPath]
    apply List.map_congr_left
    intro i _
    simpa using fullSubPath_eq_join main (i + 1) main.subPath

/-- C4: in every rule produced by ToTranslationRule the primary mount gets
sub-path name/data-0 of the ROOT manifest (suffixed with the root's own
sub-path when non-empty), the i-th declared volume gets name/data-(i+1) with
the same suffix, and the node's own declared sub-path never influences any
mount's sub-path (the worker scenario from Test_translate: a secondary with
declared subpath /worker still mounts at web/data-0). -/
theorem C4_subpath_allocation (dev main : Dev) (b : Bool) (s : String) :
    (((dev.ToTranslationRule main b).volumes.map (fun v => v.subPath)) =
      (List.range (dev.volumes.length + 1)).map
        (fun i => filepathJoin [main.name, "data-" ++ toString i, main.subPath])) ∧
    ((({ dev with subPath := s } : Dev).ToTranslationRule main b).volumes.map
        (fun v => v.subPath) =
      (dev.ToTranslationRule main b).volumes.map (fun v => v.subPath)) ∧
    ((devWorker.ToTranslationRule devWeb false).volumes.map (fun v => v.subPath) =
      ["web/data-0"]) ∧
    ((devWeb.ToTranslationRule devWeb true).volumes.map (fun v => v.subPath) =
      ["web/data-0"]) ∧
    ((({ devWeb with volumes := ["/vol1"] } : Dev).ToTranslationRule
        ({ devWeb with volumes := ["/vol1"] } : Dev) true).volumes.map (fun v => v.subPath) =
      ["web/data-0", "web/data-1"]) ∧
    ((({ devWeb with volumes := ["/vol1"], subPath := "src" } : Dev).ToTranslationRule
        ({ devWeb with volumes := ["/vol1"], subPath := "src" } : Dev) true).volumes.map
          (fun v => v.subPath) =
      ["web/data-0/src", "web/data-1/src"]) := by
  refine ⟨toTranslationRule_volumes_subPaths dev main b, ?_, ?_, ?_, ?_, ?_⟩
  · rw [toTranslationRule_volumes_subPaths, toTranslationRule_volumes_subPaths]
  · rfl
  · rfl
  · rfl
  · rfl

/-- C7: the root rule disables health checks and forces command tail with
args -f /dev/null regardless of the declared command; a secondary rule
enables health checks and carries the declared command with empty args
exactly when that command is non-empty. -/
theorem C7_command_healthchecks (dev main : Dev) :
    ((dev.ToTranslationRule main true).healthchecks = false ∧
      (dev.ToTranslationRule main true).command = some ["tail"] ∧
      (dev.ToTranslationRule main true).args = some ["-f", "/dev/null"]) ∧
    ((dev.ToTranslationRule main false).healthchecks = true ∧
      (dev.ToTranslationRule main false).command =
        (if dev.command = [] then none else some dev.command) ∧
      (dev.ToTranslationRule main false).args =
        (if dev.command = [] then none else some ([] : List String))) := by
  by_cases h : dev.command = [] <;>
    simp [Dev.ToTranslationRule, h, List.length_pos, List.isEmpty_iff]

/-- A k8s container, restricted to the fields the resource and
security-context merges touch (apiv1.Container). -/
structure Container where
  name : String
  resources : ResourceRequirements
  securityContext : Option SecurityContext
deriving DecidableEq

/-- Overwrite-or-keep on an optional value: the new value wins when present,
otherwise the base value survives. -/
def overrideOpt {α : Type} (base newV : Option α) : Option α :=
  match newV with
  | some v => some v
  | none => base

/-- Merge the CPU/memory entries of one resource bound: an entry the rule
specifies overwrites; an entry the rule omits keeps the container's value. -/
def mergePair (base rule : ResourcePair) : ResourcePair :=
  { cpu := overrideOpt base.cpu rule.cpu, memory := overrideOpt base.memory rule.memory }

/-- Modelled from the spec: TranslateResources lives in
pkg/k8s/deployments/translate.go, which is not under src/ (only its test
Test_translateResources is).  Per the spec, for each of CPU and memory,
independently for limits and for requests, a quantity the rule specifies
overwrites the container's existing value; a quantity the rule omits leaves
the container's pre-existing value (or its absence) unchanged; quantities
are never summed. -/
def TranslateResources (c : Container) (r : ResourceRequirements) : Container :=
  { c with resources :=
    { limits := mergePair c.resources.limits r.limits
      requests := mergePair c.resources.requests r.requests } }

/-- Deduplicated ordered union of capability lists: existing entries keep
their order; each new entry is appended only if not already present
(case-sensitive exact match). -/
def mergeCapsList (existing toMerge : List String) : List String :=
  toMerge.foldl (fun acc cap => if cap ∈ acc then acc else acc ++ [cap]) existing

/-- Modelled from the spec: TranslateSecurityContext lives in
pkg/k8s/deployments/translate.go, which is not under src/ (only its test
Test_translateSecurityContext is).  Per the spec, a nil rule security
context changes nothing; otherwise user/group/fsGroup are overwritten when
present in the rule and capability add/drop lists are merged as deduplicated
ordered unions. -/
def TranslateSecurityContext (c : Container) (s : Option SecurityContext) : Container :=
  match s with
  | none => c
  | some sc =>
    let cur := c.securityContext.getD
      { runAsUser := none, runAsGroup := none, fsGroup := none, capabilities := none }
    let curCaps := cur.capabilities.getD { add := [], drop := [] }
    let caps : Option Capabilities :=
      match sc.capabilities with
      | none => cur.capabilities
      | some rc => some { add := mergeCapsList curCaps.add rc.add
                          drop := mergeCapsList curCaps.drop rc.drop }
    { c with securityContext := some (
      { runAsUser := overrideOpt cur.runAsUser sc.runAsUser
        runAsGroup := overrideOpt cur.runAsGroup sc.runAsGroup
        fsGroup := overrideOpt cur.fsGroup sc.fsGroup
        capabilities := caps } : SecurityContext) }

/-- The merged capability list is the existing list followed by some tail. -/
theorem mergeCapsList_exists_suffix (toMerge existing : List String) :
    ∃ t, mergeCapsList existing toMerge = existing ++ t := by
  induction toMerge generalizing existing with
  | nil => exact ⟨[], by simp [mergeCapsList]⟩
  | cons c cs ih =>
    have hstep : mergeCapsList existing (c :: cs) =
        mergeCapsList (if c ∈ existing then existing else existing ++ [c]) cs := rfl
    by_cases hc : c ∈ existing
    · obtain ⟨t, ht⟩ := ih existing
      exact ⟨t, by rw [hstep, if_pos hc, ht]⟩
    · obtain ⟨t, ht⟩ := ih (existing ++ [c])
      exact ⟨[c] ++ t, by rw [hstep, if_neg hc, ht, List.append_assoc]⟩

/-- Capability merge preserves freedom from duplicates. -/
theorem mergeCapsList_nodup (toMerge existing : List String) (h : existing.Nodup) :
    (mergeCapsList existing toMerge).Nodup := by
  induction toMerge generalizing existing with
  | nil => exact h
  | cons c cs ih =>
    have hstep : mergeCapsList existing (c :: cs) =
        mergeCapsList (if c ∈ existing then existing else existing ++ [c]) cs := rfl
    rw [hstep]
    by_cases hc : c ∈ existing
    · rw [if_pos hc]; exact ih existing h
    · rw [if_neg hc]
      exact ih (existing ++ [c]) (by simp [List.nodup_append, h, hc])

/-- Membership in the merged capability list. -/
theorem mergeCapsList_mem (toMerge existing : List String) (a : String) :
    a ∈ mergeCapsList existing toMerge ↔ a ∈ existing ∨ a ∈ toMerge := by
  induction toMerge generalizing existing with
  | nil => simp [mergeCapsList]
  | cons c cs ih =>
    have hstep : mergeCapsList existing (c :: cs) =
        mergeCapsList (if c ∈ existing then existing else existing ++ [c]) cs := rfl
    rw [hstep]
    by_cases hc : c ∈ existing
    · rw [if_pos hc, ih]
      constructor
      · rintro (h | h)
        · exact Or.inl h
        · exact Or.inr (List.mem_cons_of_mem _ h)
      · rintro (h | h)
        · exact Or.inl h
        · rcases List.mem_cons.mp h with rfl | h
          · exact Or.inl hc
          · exact Or.inr h
    · rw [if_neg hc, ih]
      simp only [List.mem_append, List.mem_singleton, List.mem_cons]
      tauto

/-- A container with no resources and no security context. -/
def containerEmpty : Container :=
  { name := "dev", resources := emptyResources, securityContext := none }

/-- The container of the Test_translateResources cases that carry resources:
requests memory 2Gi, cpu 1; limits memory 0.250Gi, cpu 0.125 (bytes/cores as
exact rationals). -/
def containerFull : Container :=
  { name := "dev"
    resources :=
      { limits := { cpu := some (1/8 : ℚ), memory := some (268435456 : ℚ) }
        requests := { cpu := some (1 : ℚ), memory := some (2147483648 : ℚ) } }
    securityContext := none }

/-- The rule resources of the limits-in-yaml-no-limits-in-container test
case: limits memory 0.250Gi, cpu 0.125; requests memory 2Gi, cpu 1. -/
def ruleResources : ResourceRequirements :=
  { limits := { cpu := some (1/8 : ℚ), memory := some (268435456 : ℚ) }
    requests := { cpu := some (1 : ℚ), memory := some (2147483648 : ℚ) } }

/-- The rule resources of the limits-in-yaml-limits-in-container test case:
limits memory 1Gi, cpu 2; requests memory 4Gi, cpu 0.125. -/
def ruleResources2 : ResourceRequirements :=
  { limits := { cpu := some (2 : ℚ), memory := some (1073741824 : ℚ) }
    requests := { cpu := some (1/8 : ℚ), memory := some (4294967296 : ℚ) } }

/-- C5: TranslateResources merges CPU and memory independently for limits
and requests, overwriting with the rule's quantity when specified and
preserving the container's value when not, never summing; the four
Test_translateResources cases, including the concrete case of the claim
(container requests 2Gi/1, limits 0.25Gi/0.125 merged with rule requests
4Gi/0.125, limits 1Gi/2 gives requests 4Gi/0.125 and limits 1Gi/2),
evaluate as the test expects. -/
theorem C5_resource_merge :
    (∀ (c : Container) (r : ResourceRequirements),
      (r.limits.cpu = none →
        (TranslateResources c r).resources.limits.cpu = c.resources.limits.cpu) ∧
      (∀ v, r.limits.cpu = some v →
        (TranslateResources c r).resources.limits.cpu = some v) ∧
      (r.limits.memory = none →
        (TranslateResources c r).resources.limits.memory = c.resources.limits.memory) ∧
      (∀ v, r.limits.memory = some v →
        (TranslateResources c r).resources.limits.memory = some v) ∧
      (r.requests.cpu = none →
        (TranslateResources c r).resources.requests.cpu = c.resources.requests.cpu) ∧
      (∀ v, r.requests.cpu = some v →
        (TranslateResources c r).resources.requests.cpu = some v) ∧
      (r.requests.memory = none →
        (TranslateResources c r).resources.requests.memory = c.resources.requests.memory) ∧
      (∀ v, r.requests.memory = some v →
        (TranslateResources c r).resources.requests.memory = some v)) ∧
    ((TranslateResources containerFull ruleResources2).resources =
      { limits := { cpu := some (2 : ℚ), memory := some (1073741824 : ℚ) }
        requests := { cpu := some (1/8 : ℚ), memory := some (4294967296 : ℚ) } }) ∧
    ((TranslateResources containerEmpty emptyResources).resources = emptyResources) ∧
    ((TranslateResources containerEmpty ruleResources).resources = ruleResources) ∧
    ((TranslateResources containerFull emptyResources).resources =
      containerFull.resources) := by
  refine ⟨?_, rfl, rfl, rfl, rfl⟩
  intro c r
  refine ⟨?_, ?_, ?_, ?_, ?_, ?_, ?_, ?_⟩ <;>
    first
      | (intro h; simp [TranslateResources, mergePair, overrideOpt, h])
      | (intro v h; simp [TranslateResources, mergePair, overrideOpt, h])

/-- Witness for C5 at the concrete rule of the claim: the rule's limit cpu 2
overwrites the container's 0.125. -/
theorem C5_resource_merge_witness :
    (TranslateResources containerFull ruleResources2).resources.limits.cpu = some (2 : ℚ) :=
  (C5_resource_merge.1 containerFull ruleResources2).2.1 (2 : ℚ) rfl

/-- The container of the merge-uniques Test_translateSecurityContext case:
existing capabilities add SYS_FOO, drop SYS_BAR. -/
def containerCaps : Container :=
  { name := "dev", resources := emptyResources
    securityContext := some
      { runAsUser := none, runAsGroup := none, fsGroup := none
        capabilities := some { add := ["SYS_FOO"], drop := ["SYS_BAR"] } } }

/-- The rule security context of the merge-uniques case: add SYS_TRACE,
drop SYS_NICE. -/
def ruleSC : SecurityContext :=
  { runAsUser := none, runAsGroup := none, fsGroup := none
    capabilities := some { add := ["SYS_TRACE"], drop := ["SYS_NICE"] } }

/-- The rule security context of the single-add case: add SYS_TRACE only. -/
def ruleSCAddOnly : SecurityContext :=
  { runAsUser := none, runAsGroup := none, fsGroup := none
    capabilities := some { add := ["SYS_TRACE"], drop := [] } }

/-- C6: TranslateSecurityContext merges add and drop lists each as a
deduplicated ordered union: existing entries keep their order as a prefix,
the result has no duplicates when the existing list had none, membership is
the union of the two lists, and the Test_translateSecurityContext cases
(existing add SYS_FOO / drop SYS_BAR with rule add SYS_TRACE / drop SYS_NICE
gives add SYS_FOO,SYS_TRACE and drop SYS_BAR,SYS_NICE in that order)
evaluate as the test expects. -/
theorem C6_capability_merge :
    (∀ existing toMerge : List String,
      (mergeCapsList existing toMerge).take existing.length = existing) ∧
    (∀ existing toMerge : List String,
      existing.Nodup → (mergeCapsList existing toMerge).Nodup) ∧
    (∀ (a : String) (existing toMerge : List String),
      a ∈ mergeCapsList existing toMerge ↔ a ∈ existing ∨ a ∈ toMerge) ∧
    (∀ (ca cd ra rd : List String) (n : String) (res : ResourceRequirements)
        (u g f : Option Int),
      (TranslateSecurityContext
        { name := n, resources := res
          securityContext := some
            { runAsUser := u, runAsGroup := g, fsGroup := f
              capabilities := some { add := ca, drop := cd } } }
        (some { runAsUser := none, runAsGroup := none, fsGroup := none
                capabilities := some { add := ra, drop := rd } })).securityContext =
      some { runAsUser := u, runAsGroup := g, fsGroup := f
             capabilities := some { add := mergeCapsList ca ra
                                    drop := mergeCapsList cd rd } }) ∧
    ((TranslateSecurityContext containerCaps (some ruleSC)).securityContext =
      some { runAsUser := none, runAsGroup := none, fsGroup := none
             capabilities := some { add := ["SYS_FOO", "SYS_TRACE"]
                                    drop := ["SYS_BAR", "SYS_NICE"] } }) ∧
    ((TranslateSecurityContext containerEmpty (some ruleSCAddOnly)).securityContext =
      some { runAsUser := none, runAsGroup := none, fsGroup := none
             capabilities := some { add := ["SYS_TRACE"], drop := [] } }) ∧
    ((TranslateSecurityContext containerEmpty (some ruleSC)).securityContext =
      some { runAsUser := none, runAsGroup := none, fsGroup := none
             capabilities := some { add := ["SYS_TRACE"], drop := ["SYS_NICE"] } }) := by
  refine ⟨?_, ?_, ?_, ?_, by decide, by decide, by decide⟩
  · intro existing toMerge
    obtain ⟨t, ht⟩ := mergeCapsList_exists_suffix toMerge existing
    rw [ht]
    simp
  · intro existing toMerge h
    exact mergeCapsList_nodup toMerge existing h
  · intro a existing toMerge
    exact mergeCapsList_mem toMerge existing a
  · intro ca cd ra rd n res u g f
    rfl

/-- Witness for C6 at the lists of the merge-uniques case: the existing
single-element add list is duplicate-free, hence so is the merged one. -/
theorem C6_capability_merge_witness :
    (mergeCapsList ["SYS_FOO"] ["SYS_TRACE"]).Nodup :=
  C6_capability_merge.2.1 ["SYS_FOO"] ["SYS_TRACE"] (by decide)

/-- Object metadata: annotations and labels as association lists with unique
keys (Go maps; List.lookup mirrors map indexing). -/
structure ObjectMeta where
  name : String
  annotations : List (String × String)
  labels : List (String × String)
deriving DecidableEq

/-- A deployment status condition (appsv1.DeploymentCondition restricted to
the fields isDeploymentFailed reads). -/
structure DeploymentCondition where
  condType : String
  status : String
  reason : String
  message : String
deriving DecidableEq

/-- Deployment status (conditions only; cleared before every update). -/
structure DeploymentStatus where
  conditions : List DeploymentCondition
deriving DecidableEq

/-- The pod template of a deployment, restricted to its metadata (the only
part DevModeOff touches). -/
structure PodTemplate where
  meta : ObjectMeta
deriving DecidableEq

/-- A deployment (appsv1.Deployment restricted to the fields the claims
touch); replicas models the Go *int32 pointer, none being nil. -/
structure Deployment where
  meta : ObjectMeta
  resourceVersion : String
  replicas : Option Int
  template : PodTemplate
  status : DeploymentStatus
deriving DecidableEq

/-- The translation envelope (model.Translation). -/
structure Translation where
  name : String
  interactive : Bool
  replicas : Int
  version : String
  marker : String
  rules : List TranslationRule
deriving DecidableEq

/-- OktetoDevLabel from pkg/k8s/deployments (deployment.go, not under src/):
the exact string value is immaterial to the claims, which only need the keys
below to be pairwise distinct. -/
def OktetoDevLabel : String := "dev.okteto.com"

/-- Pod-template annotation holding the serialized Translation
(translate.go, not under src/). -/
def OktetoTranslationAnnotationKey : String := "dev.okteto.com/translation"

/-- Deployment annotation holding the serialized original manifest
(deployment.go, not under src/). -/
def oktetoDeploymentAnnotationKey : String := "dev.okteto.com/deployment"

/-- Deployment annotation holding the developer session metadata. -/
def oktetoDeveloperAnnotationKey : String := "dev.okteto.com/developer"

/-- Deployment annotation holding the translation schema version. -/
def oktetoVersionAnnotationKey : String := "dev.okteto.com/version"

/-- getAnnotation helper of pkg/k8s/deployments (deployment.go, not under
src/): a Go map read returning the zero value "" when the key is absent. -/
def getAnnotationValue (m : ObjectMeta) (k : String) : String :=
  (m.annotations.lookup k).getD ""

/-- Go's delete(map, key) on an association list. -/
def removeKey (l : List (String × String)) (k : String) : List (String × String) :=
  l.filter (fun p => p.1 ≠ k)

/-- The two fatal malformed-JSON outcomes of DevModeOff. -/
inductive DevModeOffErr where
  | malformedManifest
  | malformedTrRules
deriving DecidableEq

/-- The field clearing the update helper of pkg/k8s/deployments performs on
every write: resourceVersion is emptied (unconditional last-writer-wins
update) and status is reset. -/
def updateForWrite (d : Deployment) : Deployment :=
  { d with resourceVersion := "", status := { conditions := [] } }

/-- DevModeOff from pkg/k8s/deployments.  JSON deserialization of the two
persisted snapshots is external (encoding/json); it is passed in as parse
functions where none models a json.Unmarshal failure.  The result carries
the object handed to update (none when no write happens). -/
def DevModeOff (d : Deployment) (parseTr : String → Option Translation)
    (parseDep : String → Option Deployment) : Except DevModeOffErr (Option Deployment) :=
  let trRulesJSON := getAnnotationValue d.template.meta OktetoTranslationAnnotationKey
  if trRulesJSON.length = 0 then
    let dManifest := getAnnotationValue d.meta oktetoDeploymentAnnotationKey
    if dManifest.length = 0 then
      .ok none
    else
      match parseDep dManifest with
      | none => .error .malformedManifest
      | some dOrig => .ok (some (updateForWrite dOrig))
  else
    match parseTr trRulesJSON with
    | none => .error .malformedTrRules
    | some trRules =>
      let d1 : Deployment := { d with
        replicas := some trRules.replicas
        meta := { d.meta with
          annotations := removeKey
            (removeKey d.meta.annotations oktetoDeveloperAnnotationKey)
            oktetoVersionAnnotationKey
          labels := removeKey d.meta.labels OktetoDevLabel }
        template := { meta := { d.template.meta with
          annotations := removeKey d.template.meta.annotations
            OktetoTranslationAnnotationKey } } }
      .ok (some (updateForWrite d1))

/-- Looking up a key just removed finds nothing. -/
theorem lookup_removeKey_self (l : List (String × String)) (k : String) :
    (removeKey l k).lookup k = none := by
  induction l with
  | nil => rfl
  | cons p t ih =>
    by_cases h : p.1 = k
    · simpa [removeKey, List.filter_cons, h] using ih
    · have hk : (k == p.1) = false := by
        simp [beq_iff_eq]
        exact fun he => h he.symm
      simpa [removeKey, List.filter_cons, h, List.lookup, hk] using ih

/-- Removing a different key leaves a lookup unchanged. -/
theorem lookup_removeKey_other (l : List (String × String)) (k k' : String)
    (h : k ≠ k') : (removeKey l k').lookup k = l.lookup k := by
  induction l with
  | nil => rfl
  | cons p t ih =>
    by_cases hp : p.1 = k'
    · have hk : (k == k') = false := by
        simp [beq_iff_eq]
        exact h
      simpa [removeKey, List.filter_cons, hp, List.lookup, hk] using ih
    · by_cases hkp : k = p.1
      · simp [removeKey, List.filter_cons, hp, List.lookup, hkp]
      · have hk : (k == p.1) = false := by simp [beq_iff_eq, hkp]
        simpa [removeKey, List.filter_cons, hp, List.lookup, hk] using ih

/-- A string has length zero exactly when it is empty. -/
theorem string_length_eq_zero (s : String) : s.length = 0 ↔ s = "" := by
  constructor
  · intro h
    cases s with
    | mk data =>
      simp [String.length] at h
      simp [h]
  · intro h
    subst h
    rfl

/-- C2: DevModeOff selects among exactly three paths.  With the translation
annotation present, a parse failure is the fatal malformed-tr-rules error
and a parse success writes back the object with the replica count restored
from the translation, the developer/version/translation annotations and the
dev-mode label removed.  With only the original-manifest annotation, a
parse failure is the fatal malformed-manifest error and a parse success
writes back the deserialized original wholesale.  With neither there is no
write and no error. -/
theorem C2_devmodeoff_paths (d : Deployment) (parseTr : String → Option Translation)
    (parseDep : String → Option Deployment) :
    (getAnnotationValue d.template.meta OktetoTranslationAnnotationKey ≠ "" →
      parseTr (getAnnotationValue d.template.meta OktetoTranslationAnnotationKey) = none →
      DevModeOff d parseTr parseDep = .error .malformedTrRules) ∧
    (∀ tr, getAnnotationValue d.template.meta OktetoTranslationAnnotationKey ≠ "" →
      parseTr (getAnnotationValue d.template.meta OktetoTranslationAnnotationKey) = some tr →
      ∃ w, DevModeOff d parseTr parseDep = .ok (some w) ∧
        w.replicas = some tr.replicas ∧
        getAnnotationValue w.meta oktetoDeveloperAnnotationKey = "" ∧
        getAnnotationValue w.meta oktetoVersionAnnotationKey = "" ∧
        getAnnotationValue w.template.meta OktetoTranslationAnnotationKey = "" ∧
        w.meta.labels.lookup OktetoDevLabel = none) ∧
    (getAnnotationValue d.template.meta OktetoTranslationAnnotationKey = "" →
      getAnnotationValue d.meta oktetoDeploymentAnnotationKey ≠ "" →
      parseDep (getAnnotationValue d.meta oktetoDeploymentAnnotationKey) = none →
      DevModeOff d parseTr parseDep = .error .malformedManifest) ∧
    (∀ dOrig, getAnnotationValue d.template.meta OktetoTranslationAnnotationKey = "" →
      getAnnotationValue d.meta oktetoDeploymentAnnotationKey ≠ "" →
      parseDep (getAnnotationValue d.meta oktetoDeploymentAnnotationKey) = some dOrig →
      DevModeOff d parseTr parseDep = .ok (some (updateForWrite dOrig))) ∧
    (getAnnotationValue d.template.meta OktetoTranslationAnnotationKey = "" →
      getAnnotationValue d.meta oktetoDeploymentAnnotationKey = "" →
      DevModeOff d parseTr parseDep = .ok none) := by
  refine ⟨?_, ?_, ?_, ?_, ?_⟩
  · intro hne hparse
    have h0 : ¬ (getAnnotationValue d.template.meta OktetoTranslationAnnotationKey).length = 0 := by
      rw [string_length_eq_zero]
      exact hne
    simp [DevModeOff, h0, hparse]
  · intro tr hne hparse
    have h0 : ¬ (getAnnotationValue d.template.meta OktetoTranslationAnnotationKey).length = 0 := by
      rw [string_length_eq_zero]
      exact hne
    refine ⟨updateForWrite { d with
        replicas := some tr.replicas
        meta := { d.meta with
          annotations := removeKey
            (removeKey d.meta.annotations oktetoDeveloperAnnotationKey)
            oktetoVersionAnnotationKey
          labels := removeKey d.meta.labels OktetoDevLabel }
        template := { meta := { d.template.meta with
          annotations := removeKey d.template.meta.annotations
            OktetoTranslationAnnotationKey } } },
      by simp [DevModeOff, h0, hparse], rfl, ?_, ?_, ?_, ?_⟩
    · show (List.lookup oktetoDeveloperAnnotationKey
        (removeKey (removeKey d.meta.annotations oktetoDeveloperAnnotationKey)
          oktetoVersionAnnotationKey)).getD "" = ""
      rw [lookup_removeKey_other _ _ _ (by decide), lookup_removeKey_self]
      rfl
    · show (List.lookup oktetoVersionAnnotationKey
        (removeKey (removeKey d.meta.annotations oktetoDeveloperAnnotationKey)
          oktetoVersionAnnotationKey)).getD "" = ""
      rw [lookup_removeKey_self]
      rfl
    · show (List.lookup OktetoTranslationAnnotationKey
        (removeKey d.template.meta.annotations OktetoTranslationAnnotationKey)).getD "" = ""
      rw [lookup_removeKey_self]
      rfl
    · exact lookup_removeKey_self d.meta.labels OktetoDevLabel
  · intro htr hman hparse
    have h0 : (getAnnotationValue d.template.meta OktetoTranslationAnnotationKey).length = 0 := by
      rw [string_length_eq_zero]
      exact htr
    have h1 : ¬ (getAnnotationValue d.meta oktetoDeploymentAnnotationKey).length = 0 := by
      rw [string_length_eq_zero]
      exact hman
    simp [DevModeOff, h0, h1, hparse]
  · intro dOrig htr hman hparse
    have h0 : (getAnnotationValue d.template.meta OktetoTranslationAnnotationKey).length = 0 := by
      rw [string_length_eq_zero]
      exact htr
    have h1 : ¬ (getAnnotationValue d.meta oktetoDeploymentAnnotationKey).length = 0 := by
      rw [string_length_eq_zero]
      exact hman
    simp [DevModeOff, h0, h1, hparse]
  · intro htr hman
    have h0 : (getAnnotationValue d.template.meta OktetoTranslationAnnotationKey).length = 0 := by
      rw [string_length_eq_zero]
      exact htr
    have h1 : (getAnnotationValue d.meta oktetoDeploymentAnnotationKey).length = 0 := by
      rw [string_length_eq_zero]
      exact hman
    simp [DevModeOff, h0, h1]

/-- An example translation envelope with replica count 2. -/
def trExample : Translation :=
  { name := "web", interactive := true, replicas := 2, version := "1.0"
    marker := "okteto.yml", rules := [] }

/-- A deployment in dev mode: translation annotation on the pod template,
developer/version annotations and the dev label on the object. -/
def dDevOn : Deployment :=
  { meta := { name := "web"
              annotations := [(oktetoDeveloperAnnotationKey, "alice"),
                              (oktetoVersionAnnotationKey, "1.0")]
              labels := [(OktetoDevLabel, "true")] }
    resourceVersion := "42"
    replicas := some 0
    template := { meta := { name := ""
                            annotations := [(OktetoTranslationAnnotationKey, "TRJSON")]
                            labels := [] } }
    status := { conditions := [] } }

/-- A parse function that deserializes TRJSON into the example envelope. -/
def parseTrEx : String → Option Translation :=
  fun s => if s = "TRJSON" then some trExample else none

/-- Witness for C2 on the dev-mode deployment: the translation path fires,
restores replicas 2 and strips the dev-mode metadata. -/
theorem C2_devmodeoff_paths_witness :
    ∃ w, DevModeOff dDevOn parseTrEx (fun _ => none) = .ok (some w) ∧
      w.replicas = some trExample.replicas ∧
      getAnnotationValue w.meta oktetoDeveloperAnnotationKey = "" ∧
      getAnnotationValue w.meta oktetoVersionAnnotationKey = "" ∧
      getAnnotationValue w.template.meta OktetoTranslationAnnotationKey = "" ∧
      w.meta.labels.lookup OktetoDevLabel = none :=
  (C2_devmodeoff_paths dDevOn parseTrEx (fun _ => none)).2.1 trExample
    (by decide) (by decide)

/-- Whether the first character list starts the second. -/
def isPrefixList : List Char → List Char → Bool
  | [], _ => true
  | _ :: _, [] => false
  | a :: as, b :: bs => a == b && isPrefixList as bs

/-- Models Go's strings.Contains on character lists: the needle occurs as a
contiguous run somewhere in the hay. -/
def containsSub (needle : List Char) : List Char → Bool
  | [] => isPrefixList needle []
  | c :: rest => isPrefixList needle (c :: rest) || containsSub needle rest

/-- Sentinel errors of pkg/errors (not under src/): ErrNotFound and ErrQuota
are distinct sentinel errors and IsNotFound recognizes exactly the former
(spec section 7 lists NotFound and the quota failure as distinct
categories); other covers any further cluster API error. -/
inductive KErr where
  | notFound
  | quota
  | other (msg : String)
deriving DecidableEq

/-- A terminated container state (exit code only). -/
structure ContainerStateTerminated where
  exitCode : Int
deriving DecidableEq

/-- A waiting container state (reason and message). -/
structure ContainerStateWaiting where
  reason : String
  message : String
deriving DecidableEq

/-- An init-container status: name plus the optional terminated/waiting
states GetByLabel inspects. -/
structure ContainerStatus where
  name : String
  terminated : Option ContainerStateTerminated
  waiting : Option ContainerStateWaiting
deriving DecidableEq

/-- The pod phase (apiv1.PodPhase). -/
inductive PodPhase where
  | pending
  | running
  | succeeded
  | failed
  | unknown
deriving DecidableEq

/-- A pod condition (type and status strings). -/
structure PodCondition where
  condType : String
  status : String
deriving DecidableEq

/-- A pod, restricted to the fields the two wait loops read. -/
structure Pod where
  name : String
  phase : PodPhase
  deletionTimestamp : Option String
  initContainerStatuses : List ContainerStatus
  conditions : List PodCondition
deriving DecidableEq

/-- isDeploymentFailed from pkg/k8s/pods, as a function of the result the
deployments.Get call returned: a not-found lookup is relayed, any other
lookup error is swallowed (logged and nil in Go), and on success ErrQuota is
returned exactly when some ReplicaFailure/FailedCreate/True condition has a
message containing "exceeded quota". -/
def isDeploymentFailed (getResult : Except KErr Deployment) : Option KErr :=
  match getResult with
  | .error e => if e = KErr.notFound then some KErr.notFound else none
  | .ok d =>
    if d.status.conditions.any (fun c =>
        c.condType = "ReplicaFailure" && c.reason = "FailedCreate" &&
        c.status = "True" && containsSub "exceeded quota".data c.message.data) then
      some KErr.quota
    else none

/-- The ways GetByLabel returns without a pod. -/
inductive GetPodErr where
  | listFailed
  | depFailed (e : KErr)
  | initFailed
  | imagePull (msg : String)
  | ctxCancelled
  | timeout
deriving DecidableEq

/-- The waiting-state check on one init-container status: an
ErrImagePull/ImagePullBackOff waiting reason is fatal with the waiting
message. -/
def waitingErr (st : ContainerStatus) : Option GetPodErr :=
  match st.waiting with
  | some w =>
    if w.reason = "ErrImagePull" ∨ w.reason = "ImagePullBackOff" then
      some (.imagePull w.message)
    else none
  | none => none

/-- The checks GetByLabel runs on one init-container status of a non-running
pod: only the okteto-init container is inspected; a non-zero-exit
termination is fatal, then the waiting state is checked. -/
def initStatusErr (st : ContainerStatus) : Option GetPodErr :=
  if st.name = OktetoInitContainer then
    match st.terminated with
    | some t => if t.exitCode ≠ 0 then some .initFailed else waitingErr st
    | none => waitingErr st
  else none

/-- First fatal init-container error across the status list, in order. -/
def checkInit (sts : List ContainerStatus) : Option GetPodErr :=
  sts.findSome? initStatusErr

/-- A pod counts toward the success condition when it is Running with no
deletion timestamp set. -/
def qualifies (p : Pod) : Bool :=
  p.phase == PodPhase.running && p.deletionTimestamp == none

/-- The single pass GetByLabel makes over the listed pods: Running pods
without deletion timestamp are collected in order; every other pod's
init-container statuses may abort the whole wait with a fatal error. -/
def scanPods : List Pod → Except GetPodErr (List Pod)
  | [] => .ok []
  | p :: rest =>
    if p.phase = PodPhase.running then
      if p.deletionTimestamp = none then
        match scanPods rest with
        | .ok l => .ok (p :: l)
        | .error e => .error e
      else scanPods rest
    else
      match checkInit p.initContainerStatuses with
      | some e => .error e
      | none => scanPods rest

/-- The cluster responses GetByLabel observes, per polling attempt: the pod
list result, the deployments.Get result behind isDeploymentFailed, and
whether the caller's context is done at the attempt's select. -/
structure PollEnv where
  list : Nat → Except String (List Pod)
  dep : Nat → Except KErr Deployment
  cancelled : Nat → Bool

/-- The every-10th-attempt side check of GetByLabel while zero pods matched:
a non-not-found error from isDeploymentFailed (the quota error) aborts
unconditionally; a not-found error aborts only when the caller did not ask
to wait until deployed. -/
def quotaStop (env : PollEnv) (waitUntilDeployed : Bool) (tries : Nat)
    (pods : List Pod) : Option GetPodErr :=
  if tries % 10 = 0 ∧ pods.length = 0 then
    match isDeploymentFailed (env.dep tries) with
    | some e =>
      if e ≠ KErr.notFound then some (.depFailed e)
      else if ¬waitUntilDeployed then some (.depFailed e)
      else none
    | none => none
  else none

/-- maxRetries constant of pkg/k8s/pods. -/
def maxRetries : Nat := 600

/-- The polling loop of GetByLabel; fuel counts the attempts left before the
maximum attempt count is exhausted, tries the current attempt index. -/
def getByLabelAux (env : PollEnv) (waitUntilDeployed : Bool) :
    Nat → Nat → Except GetPodErr Pod
  | 0, _ => .error .timeout
  | fuel + 1, tries =>
    match env.list tries with
    | .error _ => .error .listFailed
    | .ok pods =>
      match quotaStop env waitUntilDeployed tries pods with
      | some e => .error e
      | none =>
        match scanPods pods with
        | .error e => .error e
        | .ok [p] => .ok p
        | .ok _ =>
          if env.cancelled tries then .error .ctxCancelled
          else getByLabelAux env waitUntilDeployed fuel (tries + 1)

/-- GetByLabel from pkg/k8s/pods: up to maxRetries polling attempts starting
at attempt 0. -/
def GetByLabel (env : PollEnv) (waitUntilDeployed : Bool) : Except GetPodErr Pod :=
  getByLabelAux env waitUntilDeployed maxRetries 0

/-- A successful scan collects exactly the Running, non-deleting pods, in
their listed order. -/
theorem scanPods_ok (pods : List Pod) :
    ∀ l, scanPods pods = .ok l → l = pods.filter qualifies := by
  induction pods with
  | nil =>
    intro l h
    simp [scanPods] at h
    subst h
    rfl
  | cons p rest ih =>
    intro l h
    by_cases hr : p.phase = PodPhase.running
    · by_cases hd : p.deletionTimestamp = none
      · simp only [scanPods, if_pos hr, if_pos hd] at h
        cases hs : scanPods rest with
        | ok l2 =>
          rw [hs] at h
          simp at h
          subst h
          simp [List.filter_cons, qualifies, hr, hd]
          exact ih l2 hs
        | error e =>
          rw [hs] at h
          simp at h
      · simp only [scanPods, if_pos hr, if_neg hd] at h
        have hq : qualifies p = false := by
          simp [qualifies, hr, hd]
        simp [List.filter_cons, hq]
        exact ih l h
    · simp only [scanPods, if_neg hr] at h
      have hq : qualifies p = false := by
        simp [qualifies, hr]
      cases hc : checkInit p.initContainerStatuses with
      | some e =>
        rw [hc] at h
        simp at h
      | none =>
        rw [hc] at h
        simp [List.filter_cons, hq]
        exact ih l h

/-- One attempt that neither succeeds nor returns an error moves the loop to
the next attempt. -/
theorem getByLabelAux_step (env : PollEnv) (w : Bool) (fuel tries : Nat)
    (pods l : List Pod)
    (hl : env.list tries = .ok pods)
    (hq : quotaStop env w tries pods = none)
    (hs : scanPods pods = .ok l)
    (h1 : l.length ≠ 1)
    (hc : env.cancelled tries = false) :
    getByLabelAux env w (fuel + 1) tries = getByLabelAux env w fuel (tries + 1) := by
  rcases l with _ | ⟨a, _ | ⟨b, t2⟩⟩
  · simp only [getByLabelAux, hl, hq, hs]
    simp [hc]
  · simp at h1
  · simp only [getByLabelAux, hl, hq, hs]
    simp [hc]

/-- With every attempt listing zero pods and the side check never firing,
the loop exhausts its attempts and times out. -/
theorem getByLabelAux_empty (env : PollEnv) (w : Bool)
    (h1 : ∀ t, env.list t = .ok [])
    (hq : ∀ t, quotaStop env w t [] = none)
    (h3 : ∀ t, env.cancelled t = false) :
    ∀ fuel tries, getByLabelAux env w fuel tries = .error .timeout := by
  intro fuel
  induction fuel with
  | zero => intro tries; rfl
  | succ fuel ih =>
    intro tries
    rw [getByLabelAux_step env w fuel tries [] [] (h1 tries) (hq tries) rfl
      (by simp) (h3 tries)]
    exact ih (tries + 1)

/-- A pod is only ever returned off an attempt the loop reached on which
exactly one listed pod qualified. -/
theorem getByLabelAux_ok (env : PollEnv) (w : Bool) (p : Pod) :
    ∀ fuel tries, getByLabelAux env w fuel tries = .ok p →
      ∃ t, tries ≤ t ∧ t < tries + fuel ∧
        ∃ pods, env.list t = .ok pods ∧ pods.filter qualifies = [p] := by
  intro fuel
  induction fuel with
  | zero =>
    intro tries h
    simp [getByLabelAux] at h
  | succ fuel ih =>
    intro tries h
    simp only [getByLabelAux] at h
    cases hl : env.list tries with
    | error e =>
      simp only [hl] at h
      simp at h
    | ok pods =>
      simp only [hl] at h
      cases hquo : quotaStop env w tries pods with
      | some e =>
        simp only [hquo] at h
        simp at h
      | none =>
        simp only [hquo] at h
        cases hs : scanPods pods with
        | error e =>
          simp only [hs] at h
          simp at h
        | ok l =>
          simp only [hs] at h
          rcases l with _ | ⟨a, _ | ⟨b, t2⟩⟩
          · cases hc : env.cancelled tries with
            | true =>
              simp [hc] at h
            | false =>
              simp only [hc] at h
              simp at h
              obtain ⟨t, ht1, ht2, rest⟩ := ih (tries + 1) h
              exact ⟨t, by omega, by omega, rest⟩
          · simp only [Except.ok.injEq] at h
            subst h
            exact ⟨tries, le_refl tries, by omega,
              pods, hl, (scanPods_ok pods [a] hs).symm⟩
          · cases hc : env.cancelled tries with
            | true =>
              simp [hc] at h
            | false =>
              simp only [hc] at h
              simp at h
              obtain ⟨t, ht1, ht2, rest⟩ := ih (tries + 1) h
              exact ⟨t, by omega, by omega, rest⟩

/-- One-step unfolding of the polling loop at positive fuel. -/
theorem getByLabelAux_succ (env : PollEnv) (w : Bool) (fuel tries : Nat) :
    getByLabelAux env w (fuel + 1) tries =
      match env.list tries with
      | .error _ => .error .listFailed
      | .ok pods =>
        match quotaStop env w tries pods with
        | some e => .error e
        | none =>
          match scanPods pods with
          | .error e => .error e
          | .ok [p] => .ok p
          | .ok _ =>
            if env.cancelled tries then .error .ctxCancelled
            else getByLabelAux env w fuel (tries + 1) := rfl

/-- A deployment whose status carries no conditions. -/
def healthyDeployment : Deployment :=
  { meta := { name := "web", annotations := [], labels := [] }
    resourceVersion := ""
    replicas := some 1
    template := { meta := { name := "", annotations := [], labels := [] } }
    status := { conditions := [] } }

/-- A replica-failure condition whose message reports exceeded quota. -/
def quotaCondition : DeploymentCondition :=
  { condType := "ReplicaFailure", status := "True", reason := "FailedCreate"
    message := "pods exceeded quota: requests.memory" }

/-- A deployment carrying the quota-exceeded replica-failure condition. -/
def quotaDeployment : Deployment :=
  { healthyDeployment with status := { conditions := [quotaCondition] } }

/-- An environment that always lists zero pods over a deployment stuck on
exceeded quota, with no cancellation. -/
def envQuota : PollEnv :=
  { list := fun _ => .ok []
    dep := fun _ => .ok quotaDeployment
    cancelled := fun _ => false }

/-- Counterexample to C1 as stated: with the deployment reporting a
quota-exceeded replica failure and zero pods listed, GetByLabel returns the
quota error immediately even when the caller requested wait-until-deployed
(the claim predicts polling continues in that case); the flag makes no
difference. -/
theorem C1_counterexample :
    GetByLabel envQuota true = .error (.depFailed KErr.quota) ∧
    GetByLabel envQuota false = .error (.depFailed KErr.quota) ∧
    GetPodErr.depFailed KErr.quota ≠ GetPodErr.timeout := by
  refine ⟨rfl, rfl, by decide⟩

/-- C1 (amended): on attempts that are multiples of 10 with zero pods
listed, the deployment conditions are inspected; a quota-exceeded
replica-failure terminates the wait immediately with the quota error
REGARDLESS of wait-until-deployed; the flag only suppresses termination on
a deployment-not-found result, in which case polling continues until
timeout (and without the flag the not-found error is returned at once);
attempts that are not multiples of 10 never run the side check. -/
theorem C1_amended :
    (∀ (env : PollEnv) (w : Bool), env.list 0 = .ok ([] : List Pod) →
      isDeploymentFailed (env.dep 0) = some KErr.quota →
      GetByLabel env w = .error (.depFailed KErr.quota)) ∧
    (∀ (env : PollEnv) (w : Bool) (tries : Nat) (pods : List Pod),
      tries % 10 ≠ 0 → quotaStop env w tries pods = none) ∧
    (∀ env : PollEnv, (∀ t, env.list t = .ok ([] : List Pod)) →
      (∀ t, isDeploymentFailed (env.dep t) = some KErr.notFound) →
      (∀ t, env.cancelled t = false) →
      GetByLabel env true = .error .timeout ∧
      GetByLabel env false = .error (.depFailed KErr.notFound)) := by
  refine ⟨?_, ?_, ?_⟩
  · intro env w hl hd
    show getByLabelAux env w (599 + 1) 0 = _
    have hq : quotaStop env w 0 [] = some (.depFailed KErr.quota) := by
      simp [quotaStop, hd]
    simp only [getByLabelAux, hl, hq]
  · intro env w tries pods hm
    simp [quotaStop, hm]
  · intro env h1 h2 h3
    constructor
    · have hq : ∀ t, quotaStop env true t [] = none := by
        intro t
        by_cases hm : t % 10 = 0
        · simp [quotaStop, hm, h2 t]
        · simp [quotaStop, hm]
      exact getByLabelAux_empty env true h1 hq h3 maxRetries 0
    · show getByLabelAux env false (599 + 1) 0 = _
      have hq : quotaStop env false 0 [] = some (.depFailed KErr.notFound) := by
        simp [quotaStop, h2 0]
      simp only [getByLabelAux, h1 0, hq]

/-- Witness for C1 (amended) on the quota environment: the quota error comes
back even with wait-until-deployed requested. -/
theorem C1_amended_witness :
    GetByLabel envQuota true = .error (.depFailed KErr.quota) :=
  C1_amended.1 envQuota true rfl rfl

/-- An environment that always lists zero pods over a healthy deployment,
never cancelled. -/
def envEmptyHealthy : PollEnv :=
  { list := fun _ => .ok []
    dep := fun _ => .ok healthyDeployment
    cancelled := fun _ => false }

/-- As envEmptyHealthy, but the caller's context is done from the start. -/
def envCancelledNow : PollEnv :=
  { list := fun _ => .ok []
    dep := fun _ => .ok healthyDeployment
    cancelled := fun _ => true }

/-- A Running pod with no deletion timestamp. -/
def goodPod : Pod :=
  { name := "good", phase := PodPhase.running, deletionTimestamp := none
    initContainerStatuses := [], conditions := [] }

/-- An environment that lists exactly one Running pod on every attempt. -/
def envOnePod : PollEnv :=
  { list := fun _ => .ok [goodPod]
    dep := fun _ => .ok healthyDeployment
    cancelled := fun _ => false }

/-- C9: polling always stops within the fixed maximum attempt count — with
zero pods on every attempt and no failure it returns the timeout error
rather than hanging; cancellation observed on the first attempt boundary
returns the context error, distinct from timeout; and a first attempt with
exactly one Running, non-deleting pod returns that pod immediately. -/
theorem C9_termination_boundaries :
    (∀ (env : PollEnv) (w : Bool), (∀ t, env.list t = .ok ([] : List Pod)) →
      (∀ t, isDeploymentFailed (env.dep t) = none) →
      (∀ t, env.cancelled t = false) →
      GetByLabel env w = .error .timeout) ∧
    (∀ (env : PollEnv) (w : Bool), env.list 0 = .ok ([] : List Pod) →
      isDeploymentFailed (env.dep 0) = none →
      env.cancelled 0 = true →
      GetByLabel env w = .error .ctxCancelled) ∧
    (GetPodErr.ctxCancelled ≠ GetPodErr.timeout) ∧
    (∀ (env : PollEnv) (w : Bool) (p : Pod), env.list 0 = .ok [p] →
      p.phase = PodPhase.running → p.deletionTimestamp = none →
      GetByLabel env w = .ok p) := by
  refine ⟨?_, ?_, by decide, ?_⟩
  · intro env w h1 h2 h3
    have hq : ∀ t, quotaStop env w t [] = none := by
      intro t
      by_cases hm : t % 10 = 0
      · simp [quotaStop, hm, h2 t]
      · simp [quotaStop, hm]
    exact getByLabelAux_empty env w h1 hq h3 maxRetries 0
  · intro env w hl hd hc
    show getByLabelAux env w (599 + 1) 0 = _
    rw [getByLabelAux_succ]
    have hq : quotaStop env w 0 [] = none := by
      simp [quotaStop, hd]
    simp only [hl, hq]
    simp [scanPods, hc]
  · intro env w p hl hr hd
    show getByLabelAux env w (599 + 1) 0 = _
    rw [getByLabelAux_succ]
    have hs : scanPods [p] = .ok [p] := by
      simp [scanPods, hr, hd]
    have hq : quotaStop env w 0 [p] = none := by
      simp [quotaStop]
    simp only [hl, hq, hs]

/-- Witness for C9 at the three concrete environments: timeout on
never-appearing pods, context error under immediate cancellation, success
on a first attempt with one Running pod. -/
theorem C9_termination_boundaries_witness :
    GetByLabel envEmptyHealthy true = .error .timeout ∧
    GetByLabel envCancelledNow false = .error .ctxCancelled ∧
    GetByLabel envOnePod true = .ok goodPod :=
  ⟨C9_termination_boundaries.1 envEmptyHealthy true
      (fun _ => rfl) (fun _ => rfl) (fun _ => rfl),
    C9_termination_boundaries.2.1 envCancelledNow false rfl rfl rfl,
    C9_termination_boundaries.2.2.2 envOnePod true goodPod rfl rfl rfl⟩

/-- A Pending pod whose okteto-init container is stuck on ErrImagePull. -/
def badInitPod : Pod :=
  { name := "bad", phase := PodPhase.pending, deletionTimestamp := none
    initContainerStatuses :=
      [{ name := OktetoInitContainer, terminated := none
         waiting := some { reason := "ErrImagePull", message := "image not found" } }]
    conditions := [] }

/-- First attempt: the stuck pod; every later attempt: one Running pod. -/
def envPull : PollEnv :=
  { list := fun t => if t = 0 then .ok [badInitPod] else .ok [goodPod]
    dep := fun _ => .ok healthyDeployment
    cancelled := fun _ => false }

/-- Counterexample to C8 as stated: on an attempt where zero pods qualify
(the only pod is Pending with an image-pull failure on its init container),
GetByLabel returns the image-pull error instead of continuing to the next
attempt, on which exactly one pod would have qualified; the qualifying pod
is never returned. -/
theorem C8_counterexample :
    GetByLabel envPull true = .error (.imagePull "image not found") ∧
    envPull.list 1 = .ok [goodPod] ∧
    qualifies goodPod = true ∧
    List.filter qualifies [badInitPod] = [] ∧
    GetByLabel envPull true ≠ .ok goodPod := by
  have h1 : GetByLabel envPull true = .error (.imagePull "image not found") := rfl
  refine ⟨h1, rfl, rfl, rfl, ?_⟩
  rw [h1]
  simp

/-- C8 (amended): GetByLabel returns a pod only off a reached attempt on
which exactly one listed pod was Running with no deletion timestamp; and an
attempt on which the pod count differs from one that raises no failure (no
list error, no side-check error, no init-container/image-pull error) and
sees no cancellation moves the loop to the next attempt while attempts
remain. -/
theorem C8_amended :
    (∀ (env : PollEnv) (w : Bool) (p : Pod) (fuel tries : Nat),
      getByLabelAux env w fuel tries = .ok p →
      ∃ t, tries ≤ t ∧ t < tries + fuel ∧
        ∃ pods, env.list t = .ok pods ∧ pods.filter qualifies = [p]) ∧
    (∀ (env : PollEnv) (w : Bool) (p : Pod), GetByLabel env w = .ok p →
      ∃ t, t < maxRetries ∧
        ∃ pods, env.list t = .ok pods ∧ pods.filter qualifies = [p]) ∧
    (∀ (env : PollEnv) (w : Bool) (fuel tries : Nat) (pods l : List Pod),
      env.list tries = .ok pods →
      quotaStop env w tries pods = none →
      scanPods pods = .ok l →
      l.length ≠ 1 →
      env.cancelled tries = false →
      getByLabelAux env w (fuel + 1) tries = getByLabelAux env w fuel (tries + 1)) := by
  refine ⟨?_, ?_, ?_⟩
  · intro env w p fuel tries h
    exact getByLabelAux_ok env w p fuel tries h
  · intro env w p h
    obtain ⟨t, _, ht2, rest⟩ := getByLabelAux_ok env w p maxRetries 0 h
    exact ⟨t, by simpa using ht2, rest⟩
  · intro env w fuel tries pods l hl hq hs hlen hc
    exact getByLabelAux_step env w fuel tries pods l hl hq hs hlen hc

/-- Witness for C8 (amended): the environment listing one Running pod yields
that pod, and soundness locates the attempt. -/
theorem C8_amended_witness :
    ∃ t, t < maxRetries ∧
      ∃ pods, envOnePod.list t = .ok pods ∧ pods.filter qualifies = [goodPod] :=
  C8_amended.2.1 envOnePod true goodPod rfl

/-- isRunning from pkg/k8s/pods: Running phase, no deletion timestamp, and
some condition of type Ready with status True. -/
def isRunning (p : Pod) : Bool :=
  if p.phase ≠ PodPhase.running then false
  else if p.deletionTimestamp ≠ none then false
  else p.conditions.any (fun c => c.condType = "Ready" && c.status = "True")

/-- Go set insertion on the notready name set (map with unit values). -/
def insertName (l : List String) (n : String) : List String :=
  if n ∈ l then l else l ++ [n]

/-- Go delete on the notready name set. -/
def removeName (l : List String) (n : String) : List String :=
  l.filter (fun x => x ≠ n)

/-- The ways Restart and its wait loop fail. -/
inductive RestartErr where
  | listFailed
  | deleteFailed (msg : String)
  | podFailed (name : String)
  | notRestarted (names : List String)
deriving DecidableEq

/-- The cluster responses Restart observes: the initial list used for
deletion, the per-pod delete result (none is success, some the error
message), and the list result at each wait iteration. -/
structure RestartEnv where
  listDel : Except String (List Pod)
  delete : String → Option String
  waitList : Nat → Except String (List Pod)

/-- One iteration's pass over the listed pods in waitUntilRunning: Failed
aborts naming the pod; Pending and Running-but-not-ready pods clear the
all-running flag and join the notready set; ready Running pods leave the
set; Succeeded/Unknown pods are untouched (no switch case). -/
def classifyPods : List Pod → List String → Bool → Except RestartErr (List String × Bool)
  | [], notready, allRunning => .ok (notready, allRunning)
  | p :: rest, notready, allRunning =>
    match p.phase with
    | PodPhase.pending => classifyPods rest (insertName notready p.name) false
    | PodPhase.failed => .error (.podFailed p.name)
    | PodPhase.running =>
      if isRunning p then classifyPods rest (removeName notready p.name) allRunning
      else classifyPods rest (insertName notready p.name) false
    | _ => classifyPods rest notready allRunning

/-- The wait loop of waitUntilRunning: up to 60 one-second iterations; an
iteration on which every listed pod is satisfied returns success; exhausting
the iterations fails naming the pods still not ready. -/
def waitUntilRunningAux (env : RestartEnv) : Nat → Nat → List String → Except RestartErr Unit
  | 0, _, notready => .error (.notRestarted notready)
  | fuel + 1, i, notready =>
    match env.waitList i with
    | .error _ => .error .listFailed
    | .ok pods =>
      match classifyPods pods notready true with
      | .error e => .error e
      | .ok (notready2, allRunning) =>
        if allRunning then .ok ()
        else waitUntilRunningAux env fuel (i + 1) notready2

/-- waitUntilRunning from pkg/k8s/pods. -/
def waitUntilRunning (env : RestartEnv) : Except RestartErr Unit :=
  waitUntilRunningAux env 60 0 []

/-- How the delete loop of Restart ends: all deletes succeeded, or a
"not found" delete error made the whole function return nil early, or
another delete error made it fail. -/
inductive DeleteOutcome where
  | proceeded
  | earlyNil
  | failed (msg : String)
deriving DecidableEq

/-- The delete loop of Restart, in listed order. -/
def deleteLoop (env : RestartEnv) : List Pod → DeleteOutcome
  | [] => .proceeded
  | p :: rest =>
    match env.delete p.name with
    | none => deleteLoop env rest
    | some msg =>
      if containsSub "not found".data msg.data then .earlyNil
      else .failed msg

/-- Restart from pkg/k8s/pods: list the detached pods, delete each — a
"not found" delete error returns success for the WHOLE function at once —
then wait until the pods listed by the same selector are running. -/
def Restart (env : RestartEnv) : Except RestartErr Unit :=
  match env.listDel with
  | .error _ => .error .listFailed
  | .ok pods =>
    match deleteLoop env pods with
    | .earlyNil => .ok ()
    | .failed msg => .error (.deleteFailed msg)
    | .proceeded => waitUntilRunning env

/-- When every delete succeeds the loop runs to completion. -/
theorem deleteLoop_proceeded (env : RestartEnv) :
    ∀ pods : List Pod, (∀ p ∈ pods, env.delete p.name = none) →
      deleteLoop env pods = .proceeded := by
  intro pods
  induction pods with
  | nil => intro _; rfl
  | cons p rest ih =>
    intro h
    have hp : env.delete p.name = none := h p (by simp)
    simp only [deleteLoop, hp]
    exact ih (fun q hq => h q (by simp [hq]))

/-- A delete error containing "not found" after a prefix of successful
deletes short-circuits the loop into the early success. -/
theorem deleteLoop_earlyNil (env : RestartEnv) (p : Pod) (msg : String)
    (hp : env.delete p.name = some msg)
    (hm : containsSub "not found".data msg.data = true) :
    ∀ pre rest : List Pod, (∀ q ∈ pre, env.delete q.name = none) →
      deleteLoop env (pre ++ p :: rest) = .earlyNil := by
  intro pre
  induction pre with
  | nil =>
    intro rest _
    simp only [List.nil_append, deleteLoop, hp, hm]
    rfl
  | cons q t ih =>
    intro rest h
    have hq : env.delete q.name = none := h q (by simp)
    simp only [List.cons_append, deleteLoop, hq]
    exact ih rest (fun r hr => h r (by simp [hr]))

/-- One-step unfolding of the restart wait loop at positive fuel. -/
theorem waitUntilRunningAux_succ (env : RestartEnv) (fuel i : Nat) (notready : List String) :
    waitUntilRunningAux env (fuel + 1) i notready =
      match env.waitList i with
      | .error _ => .error .listFailed
      | .ok pods =>
        match classifyPods pods notready true with
        | .error e => .error e
        | .ok (notready2, allRunning) =>
          if allRunning then .ok ()
          else waitUntilRunningAux env fuel (i + 1) notready2 := rfl

/-- C10: an iteration of the restart wait loop whose pod list comes back
empty counts all pods as running vacuously and returns success at once,
regardless of later iterations; hence Restart can succeed without ever
observing a Running and Ready replacement pod. -/
theorem C10_empty_wait_success :
    (∀ env : RestartEnv, env.waitList 0 = .ok ([] : List Pod) →
      waitUntilRunning env = .ok ()) ∧
    (∀ (env : RestartEnv) (pods : List Pod), env.listDel = .ok pods →
      (∀ p ∈ pods, env.delete p.name = none) →
      env.waitList 0 = .ok ([] : List Pod) →
      Restart env = .ok ()) := by
  have hwait : ∀ env : RestartEnv, env.waitList 0 = .ok ([] : List Pod) →
      waitUntilRunning env = .ok () := by
    intro env h
    show waitUntilRunningAux env (59 + 1) 0 [] = .ok ()
    rw [waitUntilRunningAux_succ]
    simp only [h]
    rfl
  refine ⟨hwait, ?_⟩
  intro env pods hl hdel hw
  simp only [Restart, hl, deleteLoop_proceeded env pods hdel]
  exact hwait env hw

/-- A pod used only as a deletion target. -/
def detachedPod : Pod :=
  { name := "detached", phase := PodPhase.running, deletionTimestamp := none
    initContainerStatuses := [], conditions := [] }

/-- A restart environment whose deletes succeed and whose wait list is
always empty. -/
def envRestartEmpty : RestartEnv :=
  { listDel := .ok [detachedPod]
    delete := fun _ => none
    waitList := fun _ => .ok [] }

/-- Witness for C10: with one listed pod, successful deletes and an empty
wait list, Restart reports success without observing any ready pod. -/
theorem C10_empty_wait_success_witness : Restart envRestartEmpty = .ok () :=
  C10_empty_wait_success.2 envRestartEmpty [detachedPod] rfl
    (fun p _ => rfl) rfl

/-- Two pods listed for deletion. -/
def podA : Pod :=
  { name := "a", phase := PodPhase.running, deletionTimestamp := none
    initContainerStatuses := [], conditions := [] }

/-- Second pod listed for deletion; its delete would fail hard. -/
def podB : Pod :=
  { name := "b", phase := PodPhase.running, deletionTimestamp := none
    initContainerStatuses := [], conditions := [] }

/-- A Failed-phase pod the wait loop would abort on. -/
def crashedPod : Pod :=
  { name := "crashed", phase := PodPhase.failed, deletionTimestamp := none
    initContainerStatuses := [], conditions := [] }

/-- Deleting pod a reports not-found, deleting pod b would report a real
error, and the wait list shows a Failed pod the wait would abort on. -/
def envNotFound : RestartEnv :=
  { listDel := .ok [podA, podB]
    delete := fun n => if n = "a" then some "pods a not found" else some "boom"
    waitList := fun _ => .ok [crashedPod] }

/-- Counterexample to C3 as stated: the first delete returns not-found and
Restart immediately reports success — the second listed pod is never
deleted (its delete would have failed with a different error that Restart
does not surface) and the wait loop is never entered (it would have failed
on the Failed pod). -/
theorem C3_counterexample :
    Restart envNotFound = .ok () ∧
    envNotFound.delete "b" = some "boom" ∧
    waitUntilRunning envNotFound = .error (.podFailed "crashed") := by
  refine ⟨rfl, rfl, ?_⟩
  show waitUntilRunningAux envNotFound (59 + 1) 0 [] = _
  rw [waitUntilRunningAux_succ]
  rfl

/-- C3 (amended): a not-found error on any individual delete makes Restart
return success immediately, skipping the remaining listed pods and the wait
for replacements; only when every delete succeeds does Restart go on to
wait until the replacement pods are running and ready. -/
theorem C3_amended :
    (∀ (env : RestartEnv) (pre : List Pod) (p : Pod) (rest : List Pod) (msg : String),
      env.listDel = .ok (pre ++ p :: rest) →
      (∀ q ∈ pre, env.delete q.name = none) →
      env.delete p.name = some msg →
      containsSub "not found".data msg.data = true →
      Restart env = .ok ()) ∧
    (∀ (env : RestartEnv) (pods : List Pod),
      env.listDel = .ok pods →
      (∀ q ∈ pods, env.delete q.name = none) →
      Restart env = waitUntilRunning env) := by
  constructor
  · intro env pre p rest msg hl hpre hp hm
    simp only [Restart, hl, deleteLoop_earlyNil env p msg hp hm pre rest hpre]
  · intro env pods hl hdel
    simp only [Restart, hl, deleteLoop_proceeded env pods hdel]

/-- Witness for C3 (amended): in the not-found environment the early-return
branch fires on the first pod. -/
theorem C3_amended_witness : Restart envNotFound = .ok () :=
  C3_amended.1 envNotFound [] podA [podB] "pods a not found" rfl
    (fun q hq => absurd hq (List.not_mem_nil q)) rfl rfl

end Okteto
